import Mathlib

/-!
Verification of the domain-trust prober in `generateFiles.py`.

The probing core of the script is embedded shallowly:

* `get_cert_cn` (source lines 46-62): the TLS handshake and certificate
  retrieval are modelled by a `TlsResult` input describing what the network
  produced; the function's own logic (subject scan for the common-name
  attribute, all exceptions folded into `None`) is translated directly.
* `probe` (source lines 64-93): the `requests.get` call is modelled by an
  `Option GetExc` input (`none` = an HTTP response was received, `some e` =
  the exception `e` was raised).  The `try/except` classification, the scope
  computation `domain.split(".", 1)[1] in TRUSTED_TLDS`, and the final
  verdict decision are translated directly.  `probe` returns `none` exactly
  when the Python function would raise (an exception the `except` clauses do
  not catch, or `IndexError` from a dotless hostname), since such an
  exception propagates out of the worker task.
* `main` (source lines 191-203): the domain list construction, the
  fan-out/fan-in collection (modelled as an arbitrary permutation of the
  per-domain results) and the final sort with key
  `(0 if scope == "TRUSTED" else 1, domain)` are translated directly.
-/

/-- Row of the final report: the tuple `(scope, domain, cn, result, reason)`
returned by `probe` in the source. -/
structure Row where
  scope : String
  domain : String
  cn : String
  result : String
  reason : String
deriving DecidableEq

/-- Python `str.lower()` restricted to the per-character case mapping, which
agrees with it on the ASCII error messages being classified. -/
def strLower (s : String) : String := ⟨s.data.map Char.toLower⟩

/-- Check that the first list occurs at the very start of the second. -/
def leadsList : List Char → List Char → Bool
  | [], _ => true
  | _ :: _, [] => false
  | a :: as, b :: bs => a == b && leadsList as bs

/-- Check that the first list occurs contiguously somewhere in the second. -/
def occursIn (n : List Char) : List Char → Bool
  | [] => n.isEmpty
  | c :: cs => leadsList n (c :: cs) || occursIn n cs

/-- Python's substring test `needle in hay`. -/
def hasSub (hay needle : String) : Bool := occursIn needle.data hay.data

/-- `PINNED_CNS` from the source (a set; only membership is used). -/
def PINNED_CNS : List String :=
  ["ibkr.eu", "interactivebrokers.com", "www.interactivebrokers.com"]

/-- `TRUSTED_TLDS` from the source (already in Python `sorted` order). -/
def TRUSTED_TLDS : List String :=
  ["ch", "co.uk", "com", "de", "ee", "es", "eu", "fr", "ie", "it", "lu"]

/-- `EXTENDED_TLDS` from the source (already in Python `sorted` order). -/
def EXTENDED_TLDS : List String :=
  ["ad", "al", "am", "at", "az", "ba", "bg", "by", "cy", "cz", "dk", "fo",
   "ge", "gi", "gr", "hr", "hu", "il", "im", "is", "je", "li", "lt", "lv",
   "mc", "md", "me", "mk", "mt", "nl", "no", "pl", "pt", "ro", "rs", "se",
   "si", "sk", "tr", "ua", "va"]

/-- Subject field of a peer certificate as returned by `getpeercert()`: a
sequence of RDNs, each a sequence of `(attribute-name, value)` pairs. -/
structure Cert where
  subject : List (List (String × String))
deriving DecidableEq

/-- What the network produced for the TLS connect/handshake inside
`get_cert_cn`: either a completed handshake with a peer certificate, or one
of the exception classes distinguished by its `except` clauses. -/
inductive TlsResult where
  | ok (cert : Cert)
  | gaierror
  | sockTimeout
  | sslErr
  | osErr
  | otherExc
deriving DecidableEq

/-- Inner loop of `get_cert_cn`: scan one RDN for a `commonName` attribute
(the source compares `k.lower() == "commonname"`). -/
def findCNpairs : List (String × String) → Option String
  | [] => none
  | p :: rest => if strLower p.1 = "commonname" then some p.2 else findCNpairs rest

/-- Outer loop of `get_cert_cn`: scan the subject RDNs in order and return
the first `commonName` value found. -/
def findCN : List (List (String × String)) → Option String
  | [] => none
  | part :: rest =>
    match findCNpairs part with
    | some v => some v
    | none => findCN rest

/-- Function `get_cert_cn` (source lines 46-62): on a completed handshake,
scan the certificate subject for a common name; every exception
(`socket.gaierror`, `socket.timeout`, `ssl.SSLError`, `OSError`, any other
`Exception`) and a subject without a common-name attribute yield `None`. -/
def get_cert_cn : TlsResult → Option String
  | .ok cert => findCN cert.subject
  | .gaierror => none
  | .sockTimeout => none
  | .sslErr => none
  | .osErr => none
  | .otherExc => none

/-- What the `requests.get` call in `probe` raised, grouped by which
`except` clause would catch it: a `requests.exceptions.ConnectionError`
carrying message `msg`, a `requests.exceptions.Timeout`, a
`requests.exceptions.SSLError`, or any exception matching none of the three
`except` clauses. -/
inductive GetExc where
  | connErr (msg : String)
  | timeoutExc
  | sslExc
  | otherExc
deriving DecidableEq

/-- Test from `probe` line 74: the lowered connection-error message signals
a name-resolution failure. -/
def resolveFailMsg (msg : String) : Bool :=
  hasSub (strLower msg) "failed to resolve" || hasSub (strLower msg) "name or service not known"

/-- Test from `probe` line 76: the lowered message contains `refused`. -/
def refusedMsg (msg : String) : Bool := hasSub (strLower msg) "refused"

/-- Test from `probe` line 78: the lowered message contains `reset by peer`. -/
def resetMsg (msg : String) : Bool := hasSub (strLower msg) "reset by peer"

/-- Classification of a `ConnectionError` message (source lines 73-81). -/
def connReason (msg : String) : String :=
  if resolveFailMsg msg then "no dns"
  else if refusedMsg msg then "connection refused"
  else if resetMsg msg then "connection reset"
  else "connection error"

/-- The `reason` string after the `try/except` block of `probe` (source
lines 69-85): `some ""` when the GET returned a response, `some r` when an
`except` clause caught the exception and set `reason := r`, and `none` when
no clause matched, in which case the exception propagates. -/
def transportReason : Option GetExc → Option String
  | none => some ""
  | some (.connErr msg) => some (connReason msg)
  | some .timeoutExc => some "timeout"
  | some .sslExc => some "tls handshake failed"
  | some .otherExc => none

/-- Characters after the first `'.'`, or `none` when there is no dot. -/
def afterFirstDot : List Char → Option (List Char)
  | [] => none
  | c :: cs => if c = '.' then some cs else afterFirstDot cs

/-- Python `domain.split(".", 1)[1]` (source line 66): the part of the
hostname after the first dot; `none` models the `IndexError` raised when the
hostname has no dot. -/
def suffixAfterFirstDot (domain : String) : Option String :=
  (afterFirstDot domain.data).map (fun cs => ⟨cs⟩)

/-- Python truthiness of the `cn` value at line 87: `not cn` is true for
`None` and for the empty string. -/
def cnTruthy : Option String → Bool
  | none => false
  | some s => !s.data.isEmpty

/-- Final verdict decision of `probe` (source lines 87-93). -/
def classifyRow (scope domain : String) (cn : Option String) (reason : String) : Row :=
  if cnTruthy cn = false then
    { scope := scope, domain := domain, cn := "NO_CERT", result := "FAIL",
      reason := if reason.data.isEmpty then "dns/tls error" else reason }
  else if PINNED_CNS.contains (cn.getD "") then
    { scope := scope, domain := domain, cn := cn.getD "", result := "PASS",
      reason := "certificate pinned" }
  else
    { scope := scope, domain := domain, cn := cn.getD "", result := "FAIL",
      reason := "untrusted cert: " ++ cn.getD "" }

/-- Function `probe` (source lines 64-93), parameterised by what the network
produced for its two sub-probes.  Returns `none` exactly when the Python
function raises: a dotless hostname (`IndexError` at line 66) or a GET
exception no `except` clause catches. -/
def probe (domain : String) (tls : TlsResult) (tr : Option GetExc) : Option Row :=
  let cn := get_cert_cn tls
  match suffixAfterFirstDot domain with
  | none => none
  | some suffix =>
    let scope := if TRUSTED_TLDS.contains suffix then "TRUSTED" else "EXTENDED"
    match transportReason tr with
    | none => none
    | some reason => some (classifyRow scope domain cn reason)

/-- First component of the sort key at source line 203:
`0 if r[0] == "TRUSTED" else 1`. -/
def scopeRank (r : Row) : Nat := if r.scope = "TRUSTED" then 0 else 1

/-- Boolean comparison realising the sort key
`(0 if r[0] == "TRUSTED" else 1, r[1])` of source line 203 (strings compared
lexicographically by code point, as in Python). -/
def rowLE (a b : Row) : Bool :=
  decide (scopeRank a < scopeRank b) ||
    (decide (scopeRank a = scopeRank b) && decide (a.domain.data ≤ b.domain.data))

/-- The sorting pass `rows.sort(key=lambda r: (0 if r[0]=="TRUSTED" else 1, r[1]))`
at source line 203. -/
def report (rows : List Row) : List Row := rows.mergeSort rowLE

/-- Hostname construction `f"interactivebrokers.{t}"` from source line 191. -/
def mkDomain (t : String) : String := "interactivebrokers." ++ t

/-- The probe list built in `main` (source lines 191-193). -/
def domains (includeExtended : Bool) : List String :=
  TRUSTED_TLDS.map mkDomain ++
    (if includeExtended then EXTENDED_TLDS.map mkDomain else [])

/-- One probe task per domain, with the network's behaviour for each domain
given by `beh`.  `none` models the run aborting: `as_completed` +
`f.result()` (source lines 199-200) re-raises any exception a task raised,
so a single raising task prevents the report from being produced. -/
def runProbes (beh : String → TlsResult × Option GetExc) : List String → Option (List Row)
  | [] => some []
  | d :: ds =>
    match probe d (beh d).1 (beh d).2, runProbes beh ds with
    | some row, some rows => some (row :: rows)
    | _, _ => none

/-- Certificate whose subject carries the pinned common name `ibkr.eu`. -/
def certPinned : Cert := { subject := [[("commonName", "ibkr.eu")]] }

/-- Certificate whose subject carries an empty common-name value. -/
def certEmptyCN : Cert := { subject := [[("commonName", "")]] }

/-- Certificate whose subject carries a non-pinned common name. -/
def certOther : Cert := { subject := [[("commonName", "some-other-cn.example")]] }

/-- Report row produced for `interactivebrokers.eu` when its certificate
carries the pinned identity `ibkr.eu`. -/
def rowPassEU : Row :=
  { scope := "TRUSTED", domain := "interactivebrokers.eu", cn := "ibkr.eu",
    result := "PASS", reason := "certificate pinned" }

/-- Report row produced for `interactivebrokers.ad` when DNS fails. -/
def rowNoDnsAD : Row :=
  { scope := "EXTENDED", domain := "interactivebrokers.ad", cn := "NO_CERT",
    result := "FAIL", reason := "no dns" }

/-- Report row produced for `interactivebrokers.co.uk` when no certificate
and no transport failure reason are available. -/
def rowNoCertCoUk : Row :=
  { scope := "TRUSTED", domain := "interactivebrokers.co.uk", cn := "NO_CERT",
    result := "FAIL", reason := "dns/tls error" }

/-- Report row produced for `interactivebrokers.fr` when the certificate's
common-name value is the empty string and the GET succeeded. -/
def rowNoCertFR : Row :=
  { scope := "TRUSTED", domain := "interactivebrokers.fr", cn := "NO_CERT",
    result := "FAIL", reason := "dns/tls error" }

/-- Network behaviour used by concrete witnesses: every TLS fetch fails with
`socket.gaierror` and every GET raises a timeout. -/
def behW : String → TlsResult × Option GetExc :=
  fun _ => (TlsResult.gaierror, some GetExc.timeoutExc)

/-- The rows produced by a full run over the known-scope domains under
`behW`. -/
def outW : List Row := (runProbes behW (domains false)).getD []

/-! Helper lemmas -/

theorem contains_iff_mem_str (l : List String) (a : String) :
    l.contains a = true ↔ a ∈ l := by
  simp

theorem string_ne_empty_iff (c : String) : c ≠ "" ↔ c.data.isEmpty = false := by
  cases c with
  | mk l =>
    cases l with
    | nil => exact ⟨fun h => absurd (by decide) h, fun h => absurd h (by decide)⟩
    | cons x xs =>
      refine ⟨fun _ => rfl, fun _ h => ?_⟩
      exact List.noConfusion (congrArg String.data h)

theorem classifyRow_domain (s d : String) (cn : Option String) (r : String) :
    (classifyRow s d cn r).domain = d := by
  unfold classifyRow
  split
  · rfl
  · split <;> rfl

theorem classifyRow_scope (s d : String) (cn : Option String) (r : String) :
    (classifyRow s d cn r).scope = s := by
  unfold classifyRow
  split
  · rfl
  · split <;> rfl

theorem classifyRow_result_cases (s d : String) (cn : Option String) (r : String) :
    (classifyRow s d cn r).result = "PASS" ∨ (classifyRow s d cn r).result = "FAIL" := by
  unfold classifyRow
  split
  · right; rfl
  · split
    · left; rfl
    · right; rfl

theorem classifyRow_pass_iff (s d : String) (cn : Option String) (r : String) :
    (classifyRow s d cn r).result = "PASS" ↔
      (cnTruthy cn = true ∧ PINNED_CNS.contains (cn.getD "") = true) := by
  unfold classifyRow
  split
  · rename_i hfalse
    constructor
    · intro h
      have hfp : ("FAIL" : String) = "PASS" := h
      exact absurd hfp (by decide)
    · intro ⟨h1, _⟩
      rw [hfalse] at h1
      cases h1
  · rename_i htrue
    split
    · rename_i hmem
      constructor
      · intro _
        exact ⟨eq_true_of_ne_false htrue, hmem⟩
      · intro _
        rfl
    · rename_i hmem
      constructor
      · intro h
        have hfp : ("FAIL" : String) = "PASS" := h
        exact absurd hfp (by decide)
      · intro ⟨_, h2⟩
        exact absurd h2 hmem

theorem probe_some_inv (d : String) (tls : TlsResult) (tr : Option GetExc) (row : Row)
    (h : probe d tls tr = some row) :
    ∃ suf reason, suffixAfterFirstDot d = some suf ∧ transportReason tr = some reason ∧
      row = classifyRow (if TRUSTED_TLDS.contains suf then "TRUSTED" else "EXTENDED")
              d (get_cert_cn tls) reason := by
  unfold probe at h
  cases hd : suffixAfterFirstDot d with
  | none => rw [hd] at h; cases h
  | some suf =>
    rw [hd] at h
    cases hr : transportReason tr with
    | none =>
      simp only [hr] at h
      exact Option.noConfusion h
    | some reason =>
      simp only [hr] at h
      exact ⟨suf, reason, rfl, rfl, (Option.some.inj h).symm⟩

theorem probe_eq (d suf : String) (tls : TlsResult) (tr : Option GetExc) (reason : String)
    (hd : suffixAfterFirstDot d = some suf) (hr : transportReason tr = some reason) :
    probe d tls tr =
      some (classifyRow (if TRUSTED_TLDS.contains suf then "TRUSTED" else "EXTENDED")
              d (get_cert_cn tls) reason) := by
  unfold probe
  rw [hd, hr]

theorem transportReason_isSome (tr : Option GetExc) (h : tr ≠ some GetExc.otherExc) :
    ∃ r, transportReason tr = some r := by
  cases tr with
  | none => exact ⟨"", rfl⟩
  | some e =>
    cases e with
    | connErr msg => exact ⟨connReason msg, rfl⟩
    | timeoutExc => exact ⟨"timeout", rfl⟩
    | sslExc => exact ⟨"tls handshake failed", rfl⟩
    | otherExc => exact absurd rfl h

theorem connReason_mem (msg : String) :
    connReason msg ∈
      ["no dns", "connection refused", "connection reset", "connection error"] := by
  unfold connReason
  split
  · simp
  · split
    · simp
    · split <;> simp

theorem connReason_ne_empty (msg : String) : (connReason msg).data.isEmpty = false := by
  unfold connReason
  split
  · rfl
  · split
    · rfl
    · split <;> rfl

theorem transportReason_ne_empty (e : GetExc) (r : String)
    (h : transportReason (some e) = some r) : r.data.isEmpty = false := by
  cases e with
  | connErr msg =>
    cases Option.some.inj h
    exact connReason_ne_empty msg
  | timeoutExc =>
    cases Option.some.inj h
    rfl
  | sslExc =>
    cases Option.some.inj h
    rfl
  | otherExc => exact Option.noConfusion h

theorem findCNpairs_isSome_iff (l : List (String × String)) :
    (findCNpairs l).isSome = true ↔ ∃ p ∈ l, strLower p.1 = "commonname" := by
  induction l with
  | nil => simp [findCNpairs]
  | cons p rest ih =>
    unfold findCNpairs
    split
    · rename_i hk
      exact iff_of_true rfl ⟨p, List.mem_cons_self .., hk⟩
    · rename_i hk
      rw [ih]
      constructor
      · rintro ⟨q, hq, hcn⟩
        exact ⟨q, List.mem_cons_of_mem _ hq, hcn⟩
      · rintro ⟨q, hq, hcn⟩
        rcases List.mem_cons.mp hq with rfl | hq'
        · exact absurd hcn hk
        · exact ⟨q, hq', hcn⟩

theorem findCNpairs_some (l : List (String × String)) (v : String)
    (h : findCNpairs l = some v) :
    ∃ p ∈ l, strLower p.1 = "commonname" ∧ p.2 = v := by
  induction l with
  | nil => exact Option.noConfusion h
  | cons p rest ih =>
    unfold findCNpairs at h
    split at h
    · rename_i hk
      exact ⟨p, List.mem_cons_self .., hk, Option.some.inj h⟩
    · obtain ⟨q, hq, hcn, hv⟩ := ih h
      exact ⟨q, List.mem_cons_of_mem _ hq, hcn, hv⟩

theorem findCN_isSome_iff (parts : List (List (String × String))) :
    (findCN parts).isSome = true ↔
      ∃ part ∈ parts, ∃ p ∈ part, strLower p.1 = "commonname" := by
  induction parts with
  | nil => simp [findCN]
  | cons part rest ih =>
    unfold findCN
    cases hp : findCNpairs part with
    | some v =>
      refine iff_of_true rfl ⟨part, List.mem_cons_self .., ?_⟩
      obtain ⟨q, hq, hcn, _⟩ := findCNpairs_some part v hp
      exact ⟨q, hq, hcn⟩
    | none =>
      rw [ih]
      constructor
      · rintro ⟨pt, hpt, hin⟩
        exact ⟨pt, List.mem_cons_of_mem _ hpt, hin⟩
      · rintro ⟨pt, hpt, hin⟩
        rcases List.mem_cons.mp hpt with rfl | hpt'
        · obtain ⟨q, hq, hcn⟩ := hin
          have : (findCNpairs pt).isSome = true := (findCNpairs_isSome_iff pt).mpr ⟨q, hq, hcn⟩
          rw [hp] at this
          exact Bool.noConfusion this
        · exact ⟨pt, hpt', hin⟩

theorem findCN_some (parts : List (List (String × String))) (v : String)
    (h : findCN parts = some v) :
    ∃ part ∈ parts, ∃ p ∈ part, strLower p.1 = "commonname" ∧ p.2 = v := by
  induction parts with
  | nil => exact Option.noConfusion h
  | cons part rest ih =>
    unfold findCN at h
    cases hp : findCNpairs part with
    | some w =>
      rw [hp] at h
      have hwv := Option.some.inj h
      obtain ⟨q, hq, hcn, hv⟩ := findCNpairs_some part w hp
      exact ⟨part, List.mem_cons_self .., q, hq, hcn, hv.trans hwv⟩
    | none =>
      rw [hp] at h
      obtain ⟨pt, hpt, hin⟩ := ih h
      exact ⟨pt, List.mem_cons_of_mem _ hpt, hin⟩

theorem rowLE_trans (a b c : Row) (h1 : rowLE a b = true) (h2 : rowLE b c = true) :
    rowLE a c = true := by
  unfold rowLE at h1 h2 ⊢
  simp only [Bool.or_eq_true, Bool.and_eq_true, decide_eq_true_eq] at h1 h2 ⊢
  rcases h1 with h1 | ⟨h1e, h1d⟩ <;> rcases h2 with h2 | ⟨h2e, h2d⟩
  · exact Or.inl (lt_trans h1 h2)
  · exact Or.inl (lt_of_lt_of_le h1 (le_of_eq h2e))
  · exact Or.inl (lt_of_le_of_lt (le_of_eq h1e) h2)
  · exact Or.inr ⟨h1e.trans h2e, le_trans h1d h2d⟩

theorem rowLE_total (a b : Row) : (rowLE a b || rowLE b a) = true := by
  unfold rowLE
  simp only [Bool.or_eq_true, Bool.and_eq_true, decide_eq_true_eq]
  rcases Nat.lt_trichotomy (scopeRank a) (scopeRank b) with h | h | h
  · exact Or.inl (Or.inl h)
  · rcases le_total a.domain.data b.domain.data with hd | hd
    · exact Or.inl (Or.inr ⟨h, hd⟩)
    · exact Or.inr (Or.inr ⟨h.symm, hd⟩)
  · exact Or.inr (Or.inl h)

theorem rowLE_imp (a b : Row) (h : rowLE a b = true) :
    scopeRank a ≤ scopeRank b ∧ (scopeRank a = scopeRank b → a.domain ≤ b.domain) := by
  unfold rowLE at h
  simp only [Bool.or_eq_true, Bool.and_eq_true, decide_eq_true_eq] at h
  rcases h with h | ⟨he, hd⟩
  · refine ⟨le_of_lt h, fun heq => ?_⟩
    rw [heq] at h
    exact absurd h (lt_irrefl _)
  · exact ⟨le_of_eq he, fun _ => String.le_iff_toList_le.mpr hd⟩

theorem probe_domain (d : String) (tls : TlsResult) (tr : Option GetExc) (row : Row)
    (h : probe d tls tr = some row) : row.domain = d := by
  obtain ⟨suf, reason, _, _, hrow⟩ := probe_some_inv d tls tr row h
  rw [hrow, classifyRow_domain]

theorem runProbes_domains (beh : String → TlsResult × Option GetExc) :
    ∀ (ds : List String) (out : List Row),
      runProbes beh ds = some out → out.map Row.domain = ds := by
  intro ds
  induction ds with
  | nil =>
    intro out h
    cases Option.some.inj h
    rfl
  | cons d rest ih =>
    intro out h
    unfold runProbes at h
    cases hp : probe d (beh d).1 (beh d).2 with
    | none => rw [hp] at h; exact Option.noConfusion h
    | some row =>
      rw [hp] at h
      cases hrest : runProbes beh rest with
      | none => rw [hrest] at h; exact Option.noConfusion h
      | some rows =>
        rw [hrest] at h
        cases Option.some.inj h
        simp only [List.map_cons]
        rw [probe_domain d _ _ row hp, ih rows hrest]

theorem cn_present_pinned_iff (o : Option String) :
    (cnTruthy o = true ∧ PINNED_CNS.contains (o.getD "") = true) ↔
      ∃ c, o = some c ∧ c ≠ "" ∧ c ∈ PINNED_CNS := by
  cases o with
  | none => simp [cnTruthy]
  | some c =>
    simp only [cnTruthy, Option.getD_some]
    constructor
    · intro ⟨h1, h2⟩
      refine ⟨c, rfl, ?_, (contains_iff_mem_str ..).mp h2⟩
      rw [string_ne_empty_iff]
      simpa using h1
    · rintro ⟨c', hc', hne, hmem⟩
      cases Option.some.inj hc'
      refine ⟨?_, (contains_iff_mem_str ..).mpr hmem⟩
      simpa using (string_ne_empty_iff c).mp hne

theorem transport_reason_ne_untrusted (tr : Option GetExc) (r : String)
    (h : transportReason tr = some r) (hne : r.data.isEmpty = false) :
    r ≠ "untrusted cert: " := by
  cases tr with
  | none =>
    cases Option.some.inj h
    exact absurd hne (by decide)
  | some e =>
    cases e with
    | connErr msg =>
      cases Option.some.inj h
      have hm := connReason_mem msg
      simp only [List.mem_cons, List.not_mem_nil, or_false] at hm
      rcases hm with h1 | h1 | h1 | h1 <;> rw [h1] <;> decide
    | timeoutExc =>
      cases Option.some.inj h
      decide
    | sslExc =>
      cases Option.some.inj h
      decide
    | otherExc => exact Option.noConfusion h

/-- C1: for every probed domain that produced an outcome, the row's verdict
is `PASS` if and only if a certificate identity was obtained (present and
non-empty, which is what the code's `not cn` truthiness test checks) and
that identity is a member of the pinned set `PINNED_CNS`; in every other
case the verdict is `FAIL`. -/
theorem verdict_pass_iff_pinned (d : String) (tls : TlsResult) (tr : Option GetExc)
    (row : Row) (h : probe d tls tr = some row) :
    (row.result = "PASS" ↔ ∃ c, get_cert_cn tls = some c ∧ c ≠ "" ∧ c ∈ PINNED_CNS) ∧
    (row.result ≠ "PASS" → row.result = "FAIL") := by
  obtain ⟨suf, reason, hd, hr, hrow⟩ := probe_some_inv d tls tr row h
  subst hrow
  constructor
  · rw [classifyRow_pass_iff, cn_present_pinned_iff]
  · intro hne
    rcases classifyRow_result_cases _ d (get_cert_cn tls) reason with hp | hf
    · exact absurd hp hne
    · exact hf

/-- Witness for C1: the pinned certificate `ibkr.eu` on
`interactivebrokers.eu` with a successful GET yields the `PASS` row. -/
theorem verdict_pass_iff_pinned_witness :
    (rowPassEU.result = "PASS" ↔
      ∃ c, get_cert_cn (TlsResult.ok certPinned) = some c ∧ c ≠ "" ∧ c ∈ PINNED_CNS) ∧
    (rowPassEU.result ≠ "PASS" → rowPassEU.result = "FAIL") :=
  verdict_pass_iff_pinned "interactivebrokers.eu" (TlsResult.ok certPinned) none
    rowPassEU (by decide)

/-- C5: for every probed domain with no usable certificate identity that
produced an outcome, the row shows `NO_CERT` and `FAIL`; its reason equals
the transport classification when an `except` clause produced one, and is
`dns/tls error` (the code's rendering of the spec's `NoTlsAvailable`) when
the GET received an HTTP response. -/
theorem absent_identity_reason (d : String) (tls : TlsResult) (tr : Option GetExc)
    (row : Row) (h : probe d tls tr = some row)
    (habs : cnTruthy (get_cert_cn tls) = false) :
    row.result = "FAIL" ∧ row.cn = "NO_CERT" ∧
    (∀ e r, tr = some e → transportReason (some e) = some r → row.reason = r) ∧
    (tr = none → row.reason = "dns/tls error") := by
  obtain ⟨suf, reason, hd, hr, hrow⟩ := probe_some_inv d tls tr row h
  subst hrow
  unfold classifyRow
  rw [if_pos habs]
  refine ⟨rfl, rfl, ?_, ?_⟩
  · intro e r hte htr
    subst hte
    have hrr : reason = r := Option.some.inj (hr.symm.trans htr)
    have hne := transportReason_ne_empty e reason hr
    simp only [hne, Bool.false_eq_true, if_false]
    exact hrr
  · intro hte
    subst hte
    have hre : ("" : String) = reason := Option.some.inj hr
    rw [← hre]
    rfl

/-- Witness for C5: a DNS-dead domain whose GET raised a resolution
failure. -/
theorem absent_identity_reason_witness :
    rowNoDnsAD.result = "FAIL" ∧ rowNoDnsAD.cn = "NO_CERT" ∧
    (∀ e r, (some (GetExc.connErr "Failed to resolve host") : Option GetExc) = some e →
      transportReason (some e) = some r → rowNoDnsAD.reason = r) ∧
    ((some (GetExc.connErr "Failed to resolve host") : Option GetExc) = none →
      rowNoDnsAD.reason = "dns/tls error") :=
  absent_identity_reason "interactivebrokers.ad" TlsResult.gaierror
    (some (GetExc.connErr "Failed to resolve host")) rowNoDnsAD (by decide) (by decide)

/-- C8: `get_cert_cn` is total over every network outcome (modelling that it
never raises past its boundary: DNS failure, timeouts, TLS failure and any
other exception all yield `None`); on a completed handshake it returns a
common-name value exactly when the subject carries a `commonName` attribute,
and the returned value is such an attribute's value. -/
theorem get_cert_cn_contract (r : TlsResult) :
    ((∀ cert, r ≠ TlsResult.ok cert) → get_cert_cn r = none) ∧
    (∀ cert, r = TlsResult.ok cert →
      (((get_cert_cn r).isSome = true) ↔
        ∃ part ∈ cert.subject, ∃ p ∈ part, strLower p.1 = "commonname") ∧
      (∀ v, get_cert_cn r = some v →
        ∃ part ∈ cert.subject, ∃ p ∈ part, strLower p.1 = "commonname" ∧ p.2 = v)) := by
  constructor
  · intro hno
    cases r with
    | ok cert => exact absurd rfl (hno cert)
    | gaierror => rfl
    | sockTimeout => rfl
    | sslErr => rfl
    | osErr => rfl
    | otherExc => rfl
  · intro cert hok
    subst hok
    exact ⟨findCN_isSome_iff cert.subject, fun v hv => findCN_some cert.subject v hv⟩

/-- Witness for C8: a DNS failure yields no identity, and the pinned
certificate yields its declared common name. -/
theorem get_cert_cn_contract_witness :
    get_cert_cn TlsResult.gaierror = none ∧
    ∃ part ∈ certPinned.subject, ∃ p ∈ part,
      strLower p.1 = "commonname" ∧ p.2 = "ibkr.eu" :=
  ⟨(get_cert_cn_contract TlsResult.gaierror).1 (fun _ h => TlsResult.noConfusion h),
   ((get_cert_cn_contract (TlsResult.ok certPinned)).2 certPinned rfl).2 "ibkr.eu" (by decide)⟩

/-- C9: for every probed domain that produced an outcome, the scope tag is
`TRUSTED` (the code's rendering of the spec's `Known`) exactly when the part
of the hostname after the first dot is in `TRUSTED_TLDS`, and `EXTENDED`
otherwise. -/
theorem scope_known_iff_suffix (d : String) (tls : TlsResult) (tr : Option GetExc)
    (row : Row) (h : probe d tls tr = some row) :
    ∃ suf, suffixAfterFirstDot d = some suf ∧
      (row.scope = "TRUSTED" ↔ suf ∈ TRUSTED_TLDS) ∧
      (row.scope = "EXTENDED" ↔ suf ∉ TRUSTED_TLDS) := by
  obtain ⟨suf, reason, hd, hr, hrow⟩ := probe_some_inv d tls tr row h
  subst hrow
  rw [classifyRow_scope]
  have hts : ("EXTENDED" : String) ≠ "TRUSTED" := by decide
  refine ⟨suf, hd, ?_, ?_⟩
  · by_cases hm : suf ∈ TRUSTED_TLDS
    · rw [if_pos ((contains_iff_mem_str ..).mpr hm)]
      exact iff_of_true rfl hm
    · rw [if_neg (fun hcc => hm ((contains_iff_mem_str ..).mp hcc))]
      exact iff_of_false hts hm
  · by_cases hm : suf ∈ TRUSTED_TLDS
    · rw [if_pos ((contains_iff_mem_str ..).mpr hm)]
      exact iff_of_false (fun he => hts he.symm) (fun hnm => hnm hm)
    · rw [if_neg (fun hcc => hm ((contains_iff_mem_str ..).mp hcc))]
      exact iff_of_true rfl hm

/-- Witness for C9: `interactivebrokers.co.uk` has suffix `co.uk` (the part
after the first dot), which is in `TRUSTED_TLDS`. -/
theorem scope_known_iff_suffix_witness :
    ∃ suf, suffixAfterFirstDot "interactivebrokers.co.uk" = some suf ∧
      (rowNoCertCoUk.scope = "TRUSTED" ↔ suf ∈ TRUSTED_TLDS) ∧
      (rowNoCertCoUk.scope = "EXTENDED" ↔ suf ∉ TRUSTED_TLDS) :=
  scope_known_iff_suffix "interactivebrokers.co.uk" TlsResult.gaierror none
    rowNoCertCoUk (by decide)

/-- C10: a certificate whose subject common-name attribute is the empty
string is classified as having no identity at all: the row shows `NO_CERT`,
fails, and its reason is never the untrusted-certificate reason (which for
the empty identity would read `untrusted cert: `), because Python's
`not cn` treats `""` like `None`. -/
theorem empty_cn_no_cert (d : String) (cert : Cert) (tr : Option GetExc) (row : Row)
    (hcn : get_cert_cn (TlsResult.ok cert) = some "")
    (h : probe d (TlsResult.ok cert) tr = some row) :
    row.cn = "NO_CERT" ∧ row.result = "FAIL" ∧ row.reason ≠ "untrusted cert: " := by
  obtain ⟨suf, reason, hd, hr, hrow⟩ := probe_some_inv d (TlsResult.ok cert) tr row h
  subst hrow
  have habs : cnTruthy (get_cert_cn (TlsResult.ok cert)) = false := by
    rw [hcn]
    rfl
  unfold classifyRow
  rw [if_pos habs]
  refine ⟨rfl, rfl, ?_⟩
  show (if reason.data.isEmpty = true then "dns/tls error" else reason) ≠ "untrusted cert: "
  split
  · decide
  · rename_i hne
    exact transport_reason_ne_untrusted tr reason hr (Bool.eq_false_iff.mpr hne)

/-- Witness for C10: an empty common name on `interactivebrokers.fr` with a
successful GET. -/
theorem empty_cn_no_cert_witness :
    rowNoCertFR.cn = "NO_CERT" ∧ rowNoCertFR.result = "FAIL" ∧
    rowNoCertFR.reason ≠ "untrusted cert: " :=
  empty_cn_no_cert "interactivebrokers.fr" certEmptyCN none rowNoCertFR
    (by decide) (by decide)

/-- C2 (counterexample): an exception that matches none of the three
`except` clauses is assigned no reason code at all — `transportReason`
yields `none`, modelling that the exception propagates — so the claimed
mapping "any other exception → RequestError" does not exist in the code. -/
theorem unclassified_exception_no_code :
    transportReason (some GetExc.otherExc) = none := rfl

/-- C2 (amended): for the exceptions the code classifies, the precedence is
exactly resolution failure → `no dns`, then `refused` → `connection refused`,
then `reset by peer` → `connection reset`, then any other connection error →
`connection error`; a timeout maps to `timeout` and a TLS failure to
`tls handshake failed`; a resolution failure is never reported as the
generic `connection error`; any other exception is classified to nothing
and propagates. -/
theorem transport_error_precedence (msg : String) :
    (resolveFailMsg msg = true → connReason msg = "no dns")
  ∧ (resolveFailMsg msg = false → refusedMsg msg = true →
       connReason msg = "connection refused")
  ∧ (resolveFailMsg msg = false → refusedMsg msg = false → resetMsg msg = true →
       connReason msg = "connection reset")
  ∧ (resolveFailMsg msg = false → refusedMsg msg = false → resetMsg msg = false →
       connReason msg = "connection error")
  ∧ (resolveFailMsg msg = true → connReason msg ≠ "connection error")
  ∧ transportReason (some (GetExc.connErr msg)) = some (connReason msg)
  ∧ transportReason (some GetExc.timeoutExc) = some "timeout"
  ∧ transportReason (some GetExc.sslExc) = some "tls handshake failed"
  ∧ transportReason (some GetExc.otherExc) = none := by
  refine ⟨?_, ?_, ?_, ?_, ?_, rfl, rfl, rfl, rfl⟩
  · intro h1
    unfold connReason
    rw [if_pos h1]
  · intro h1 h2
    unfold connReason
    rw [if_neg (by simp [h1]), if_pos h2]
  · intro h1 h2 h3
    unfold connReason
    rw [if_neg (by simp [h1]), if_neg (by simp [h2]), if_pos h3]
  · intro h1 h2 h3
    unfold connReason
    rw [if_neg (by simp [h1]), if_neg (by simp [h2]), if_neg (by simp [h3])]
  · intro h1
    unfold connReason
    rw [if_pos h1]
    decide

/-- Witness for C2: a message signalling both a resolution failure and a
refusal is classified `no dns` — the resolution branch wins — and in
particular is not the generic `connection error`. -/
theorem transport_error_precedence_witness :
    connReason "Failed to resolve host; Connection refused" = "no dns" ∧
    connReason "Failed to resolve host; Connection refused" ≠ "connection error" :=
  ⟨(transport_error_precedence "Failed to resolve host; Connection refused").1 (by decide),
   (transport_error_precedence
      "Failed to resolve host; Connection refused").2.2.2.2.1 (by decide)⟩

/-- C3 (counterexample): a GET exception matched by none of the three
`except` clauses makes the whole probe task raise — no outcome row is
produced for the domain — so it is not true that every exception is caught
and converted to a taxonomy code. -/
theorem probe_unclassified_exception_aborts :
    probe "interactivebrokers.de" TlsResult.gaierror (some GetExc.otherExc) = none := by
  decide

/-- C3 (amended): for every domain containing a dot (as every submitted
domain does) and every probe whose GET either returned a response or raised
an exception among the classified kinds (connection error, timeout, TLS
error), the probe task returns a row with a definite verdict; exceptions of
any other kind propagate out of the probe task. -/
theorem probe_total_on_classified (d : String) (tls : TlsResult) (tr : Option GetExc)
    (hd : (suffixAfterFirstDot d).isSome = true) (htr : tr ≠ some GetExc.otherExc) :
    ∃ row, probe d tls tr = some row ∧
      (row.result = "PASS" ∨ row.result = "FAIL") := by
  obtain ⟨suf, hsuf⟩ := Option.isSome_iff_exists.mp hd
  obtain ⟨r, hr⟩ := transportReason_isSome tr htr
  exact ⟨_, probe_eq d suf tls tr r hsuf hr, classifyRow_result_cases ..⟩

/-- Witness for C3: a timed-out GET on a DNS-dead trusted domain still
yields a row. -/
theorem probe_total_on_classified_witness :
    ∃ row, probe "interactivebrokers.ch" TlsResult.gaierror (some GetExc.timeoutExc) =
      some row ∧ (row.result = "PASS" ∨ row.result = "FAIL") :=
  probe_total_on_classified "interactivebrokers.ch" TlsResult.gaierror
    (some GetExc.timeoutExc) (by decide) (by decide)

/-- C4 (counterexample): even with the pinned identity `ibkr.eu` obtained,
the outcome is not independent of the transport result — an unclassified
GET exception aborts the task (no `PASS` row), while a successful GET
produces the `PASS` row. -/
theorem pinned_not_independent_of_unclassified :
    probe "interactivebrokers.eu" (TlsResult.ok certPinned) (some GetExc.otherExc) ≠
      probe "interactivebrokers.eu" (TlsResult.ok certPinned) none := by
  decide

/-- C4 (amended): for every domain (with a dot) whose certificate identity
is present and pinned, and for all transport results that the probe handles
(GET success or an exception among the classified kinds), the outcome is
identical — verdict `PASS`, reason `certificate pinned` — regardless of
whether or how the classification-only GET failed; only an unclassified GET
exception escapes this guarantee by aborting the task. -/
theorem pinned_independent_of_transport (d : String) (tls : TlsResult)
    (tr tr' : Option GetExc) (c : String)
    (hc : get_cert_cn tls = some c) (hp : c ∈ PINNED_CNS)
    (hd : (suffixAfterFirstDot d).isSome = true)
    (h1 : tr ≠ some GetExc.otherExc) (h2 : tr' ≠ some GetExc.otherExc) :
    probe d tls tr = probe d tls tr' ∧
    ∃ row, probe d tls tr = some row ∧ row.result = "PASS" ∧
      row.reason = "certificate pinned" := by
  obtain ⟨suf, hsuf⟩ := Option.isSome_iff_exists.mp hd
  obtain ⟨r, hr⟩ := transportReason_isSome tr h1
  obtain ⟨r', hr'⟩ := transportReason_isSome tr' h2
  have hcne : c ≠ "" := by
    simp only [PINNED_CNS, List.mem_cons, List.not_mem_nil, or_false] at hp
    rcases hp with h | h | h <;> rw [h] <;> decide
  have hct : cnTruthy (get_cert_cn tls) = true := by
    rw [hc]
    simp only [cnTruthy, Bool.not_eq_true']
    rw [← Bool.not_eq_true]
    intro hemp
    exact absurd ((string_ne_empty_iff c).mp hcne) (by simp [hemp])
  have hcont : PINNED_CNS.contains ((get_cert_cn tls).getD "") = true := by
    rw [hc, Option.getD_some]
    exact (contains_iff_mem_str ..).mpr hp
  have hrow : ∀ sc rr : String, classifyRow sc d (get_cert_cn tls) rr =
      { scope := sc, domain := d, cn := (get_cert_cn tls).getD "", result := "PASS",
        reason := "certificate pinned" } := by
    intro sc rr
    unfold classifyRow
    rw [if_neg (by simp [hct]), if_pos hcont]
  rw [probe_eq d suf tls tr r hsuf hr, probe_eq d suf tls tr' r' hsuf hr']
  refine ⟨by rw [hrow, hrow], ⟨_, rfl, ?_, ?_⟩⟩
  · rw [hrow]
  · rw [hrow]

/-- Witness for C4: the pinned certificate on `interactivebrokers.eu`, with
one GET succeeding and another timing out, yields identical `PASS` rows. -/
theorem pinned_independent_of_transport_witness :
    probe "interactivebrokers.eu" (TlsResult.ok certPinned) none =
      probe "interactivebrokers.eu" (TlsResult.ok certPinned) (some GetExc.timeoutExc) ∧
    ∃ row, probe "interactivebrokers.eu" (TlsResult.ok certPinned) none = some row ∧
      row.result = "PASS" ∧ row.reason = "certificate pinned" :=
  pinned_independent_of_transport "interactivebrokers.eu" (TlsResult.ok certPinned)
    none (some GetExc.timeoutExc) "ibkr.eu" (by decide) (by decide) (by decide)
    (by decide) (by decide)

/-- C6: whatever the completion order of the concurrent probes — the
collected `rows` list is arbitrary — the sorted report is a permutation of
the collected rows in which a `TRUSTED`-scope row never follows an
`EXTENDED`-scope row (via `scopeRank`, `TRUSTED` ranks 0 and everything
else 1) and rows of equal rank appear in lexicographic domain order. -/
theorem report_sorted_known_first (rows : List Row) :
    (report rows).Perm rows ∧
    (report rows).Pairwise (fun a b =>
      scopeRank a ≤ scopeRank b ∧ (scopeRank a = scopeRank b → a.domain ≤ b.domain)) := by
  refine ⟨List.mergeSort_perm rows rowLE, ?_⟩
  have hs := @List.sorted_mergeSort Row rowLE rowLE_trans rowLE_total rows
  exact hs.imp (fun hab => rowLE_imp _ _ hab)

/-- Witness for C6: the report over a concrete out-of-order collection. -/
theorem report_sorted_known_first_witness :
    (report [rowNoDnsAD, rowPassEU, rowNoCertCoUk]).Perm
      [rowNoDnsAD, rowPassEU, rowNoCertCoUk] ∧
    (report [rowNoDnsAD, rowPassEU, rowNoCertCoUk]).Pairwise (fun a b =>
      scopeRank a ≤ scopeRank b ∧ (scopeRank a = scopeRank b → a.domain ≤ b.domain)) :=
  report_sorted_known_first [rowNoDnsAD, rowPassEU, rowNoCertCoUk]

/-- C7: for every run whose probe tasks all completed (producing `out`) and
every completion order (`rows`, an arbitrary permutation of `out`), the
final report has exactly one row per submitted domain: the multiset of its
`domain` fields is exactly the submitted domain list, and its length equals
the number of submitted domains. -/
theorem one_row_per_domain (inclExt : Bool) (beh : String → TlsResult × Option GetExc)
    (out rows : List Row)
    (hrun : runProbes beh (domains inclExt) = some out)
    (hperm : rows.Perm out) :
    ((report rows).map Row.domain).Perm (domains inclExt) ∧
    (report rows).length = (domains inclExt).length := by
  have h2 : (report rows).Perm out := (List.mergeSort_perm rows rowLE).trans hperm
  have h3 := h2.map Row.domain
  have hmap := runProbes_domains beh (domains inclExt) out hrun
  have hlen : out.length = (domains inclExt).length := by
    rw [← hmap, List.length_map]
  exact ⟨hmap ▸ h3, h2.length_eq.trans hlen⟩

/-- Witness for C7: a full run over the eleven known-scope domains in which
every TLS fetch fails and every GET times out. -/
theorem one_row_per_domain_witness :
    ((report outW).map Row.domain).Perm (domains false) ∧
    (report outW).length = (domains false).length :=
  one_row_per_domain false behW outW outW (by decide) (List.Perm.refl outW)
